import Mathlib

/-!
Verification of the computational kernel of `src/app.py` (modulo-2 division,
syndrome computation and the single-bit-flip decoder).

Bit vectors are Python lists of ints, modelled as `List Nat`.  Python's `^`
on 0/1 ints is `Nat.xor` (`^^^`).  Out-of-range list reads never occur on the
executions the claims speak about, so `List.getD _ _ 0` and `List.set`
(no-ops out of range) coincide with Python indexing there.
-/

/-- Locals of `xor_division` (src/app.py lines 18-25): the caller's `dividend`
and `divisor` arguments, and the private working copy that line 20
(`dividend = dividend.copy()`) rebinds the local name `dividend` to.
The division loop writes only into `work`. -/
structure DivState where
  dividendArg : List Nat
  divisorArg  : List Nat
  work        : List Nat
deriving DecidableEq

/-- Inner loop of `xor_division` (lines 23-24):
`for j in range(len(divisor)): dividend[i + j] ^= divisor[j]`,
acting on the working copy. -/
def innerXor (divisor : List Nat) (i : Nat) (w : List Nat) : List Nat :=
  (List.range divisor.length).foldl
    (fun w j => w.set (i + j) ((w.getD (i + j) 0) ^^^ divisor.getD j 0)) w

/-- One outer-loop iteration of `xor_division` (lines 22-24):
`if dividend[i] == 1:` then XOR the divisor in at offset `i`. -/
def outerStep (s : DivState) (i : Nat) : DivState :=
  if s.work.getD i 0 = 1 then { s with work := innerXor s.divisorArg i s.work } else s

/-- Number of outer-loop iterations: Python's
`range(len(dividend) - len(divisor) + 1)` over ints, which is empty whenever
`len(dividend) - len(divisor) + 1 <= 0`, i.e. `len(dividend) < len(divisor)`. -/
def loopCount (dividend divisor : List Nat) : Nat :=
  if divisor.length ≤ dividend.length then dividend.length - divisor.length + 1 else 0

/-- Full run of the `xor_division` loop (lines 20-24), threading the
three locals explicitly. -/
def xorDivisionRun (dividend divisor : List Nat) : DivState :=
  (List.range (loopCount dividend divisor)).foldl outerStep
    ⟨dividend, divisor, dividend⟩

/-- Python slice `xs[-(len(divisor) - 1):]` of line 25, with
`len(divisor) - 1` computed as a Python int: for an empty divisor the slice
index is `-(-1) = 1` so the result is `xs[1:]`; for a one-element divisor it
is `-0 = 0` so the result is the whole of `xs`; otherwise it is the last
`min(len(divisor) - 1, len(xs))` elements. -/
def tailSlice (divisor : List Nat) (xs : List Nat) : List Nat :=
  if divisor.length = 0 then xs.drop 1
  else if divisor.length = 1 then xs
  else xs.drop (xs.length - (divisor.length - 1))

/-- `xor_division` (src/app.py lines 18-25). -/
def xor_division (dividend divisor : List Nat) : List Nat :=
  tailSlice divisor (xorDivisionRun dividend divisor).work

/-- `compute_syndrome` (src/app.py lines 27-28). -/
def compute_syndrome (received generator : List Nat) : List Nat :=
  xor_division received generator

/-- Locals of one trial of the decoder loop (src/app.py lines 39-40): the
`received` argument and the trial copy `test = received.copy()`. -/
structure TrialState where
  receivedArg : List Nat
  test        : List Nat
deriving DecidableEq

/-- One trial of the decoder loop: `test = received.copy(); test[i] ^= 1`
(lines 39-40).  Only `test` is written. -/
def trialRun (received : List Nat) (i : Nat) : TrialState :=
  let s : TrialState := ⟨received, received⟩
  { s with test := s.test.set i ((s.test.getD i 0) ^^^ 1) }

/-- The trial vector: `received` with bit `i` flipped. -/
def flipBit (received : List Nat) (i : Nat) : List Nat := (trialRun received i).test

/-- Python's `all(s == 0 for s in v)`. -/
def allZero (v : List Nat) : Bool := v.all (fun s => s == 0)

/-- The decoder's `for i in range(len(received))` loop (src/app.py
lines 38-44), iterating over the remaining index list: on the first index
whose trial syndrome is all-zero it returns the trial vector with the
success message, else it falls through to the failure return of line 44. -/
def searchList (received generator : List Nat) : List Nat → List Nat × String
  | [] => (received, "Unable to correct (multiple errors)")
  | i :: rest =>
    if allZero (compute_syndrome (flipBit received i) generator) then
      (flipBit received i, "Single-bit error corrected at position " ++ toString i)
    else searchList received generator rest

/-- `simple_berlekamp_like_decoder` (src/app.py lines 30-44).  The source
reads the module-level global `generator` (bound at line 64) inside the loop
at line 41; it is passed here as an explicit third argument. -/
def simple_berlekamp_like_decoder (received syndrome generator : List Nat) :
    List Nat × String :=
  if allZero syndrome then (received, "No error detected")
  else searchList received generator (List.range received.length)

/-! ### Helper lemmas -/

lemma foldl_length_inv (f : List Nat → Nat → List Nat)
    (hf : ∀ w a, (f w a).length = w.length) :
    ∀ (l : List Nat) (w : List Nat), (l.foldl f w).length = w.length := by
  intro l
  induction l with
  | nil => intro w; rfl
  | cons a t ih => intro w; rw [List.foldl_cons, ih, hf]

lemma innerXor_length (divisor : List Nat) (i : Nat) (w : List Nat) :
    (innerXor divisor i w).length = w.length := by
  unfold innerXor
  exact foldl_length_inv _ (fun w a => List.length_set w _ _) _ w

lemma outerStep_work_length (s : DivState) (i : Nat) :
    ((outerStep s i).work).length = s.work.length := by
  unfold outerStep
  split <;> simp [innerXor_length]

lemma outerStep_args (s : DivState) (i : Nat) :
    (outerStep s i).dividendArg = s.dividendArg ∧
      (outerStep s i).divisorArg = s.divisorArg := by
  unfold outerStep
  split <;> simp

lemma foldl_outerStep_work_length :
    ∀ (l : List Nat) (s : DivState),
      ((l.foldl outerStep s).work).length = s.work.length := by
  intro l
  induction l with
  | nil => intro s; rfl
  | cons a t ih => intro s; rw [List.foldl_cons, ih, outerStep_work_length]

lemma foldl_outerStep_args :
    ∀ (l : List Nat) (s : DivState),
      (l.foldl outerStep s).dividendArg = s.dividendArg ∧
        (l.foldl outerStep s).divisorArg = s.divisorArg := by
  intro l
  induction l with
  | nil => intro s; exact ⟨rfl, rfl⟩
  | cons a t ih =>
    intro s
    rw [List.foldl_cons]
    rcases ih (outerStep s a) with ⟨h1, h2⟩
    rcases outerStep_args s a with ⟨h3, h4⟩
    exact ⟨h1.trans h3, h2.trans h4⟩

lemma xorDivisionRun_work_length (d g : List Nat) :
    ((xorDivisionRun d g).work).length = d.length := by
  unfold xorDivisionRun
  rw [foldl_outerStep_work_length]

lemma flipBit_length (v : List Nat) (i : Nat) :
    (flipBit v i).length = v.length := by
  simp [flipBit, trialRun]

lemma getD_set_self (l : List Nat) (i a : Nat) (h : i < l.length) :
    (l.set i a).getD i 0 = a := by
  simp [List.getD_eq_getElem?_getD, List.getElem?_set_self, h]

lemma set_getD_self (l : List Nat) (i : Nat) (h : i < l.length) :
    l.set i (l.getD i 0) = l := by
  induction l generalizing i with
  | nil => simp at h
  | cons b t ih =>
    cases i with
    | zero => simp [List.getD]
    | succ n =>
      simp only [List.length_cons, Nat.succ_lt_succ_iff] at h
      show b :: t.set n (t.getD n 0) = b :: t
      rw [ih n h]

lemma flipBit_flipBit (v : List Nat) (i : Nat) (h : i < v.length) :
    flipBit (flipBit v i) i = v := by
  simp only [flipBit, trialRun]
  rw [getD_set_self v i _ h, List.set_set, Nat.xor_assoc]
  simpa using set_getD_self v i h

/-- First success of the search loop: if every index in `[k, i)` fails and
`i` succeeds, running the loop over the indices `range' k cnt` (with
`k ≤ i < k + cnt`) returns the trial vector at `i`. -/
lemma searchList_first (r g : List Nat) :
    ∀ (cnt k i : Nat), k ≤ i → i < k + cnt →
      (∀ j, k ≤ j → j < i →
        allZero (compute_syndrome (flipBit r j) g) = false) →
      allZero (compute_syndrome (flipBit r i) g) = true →
      searchList r g (List.range' k cnt) =
        (flipBit r i, "Single-bit error corrected at position " ++ toString i) := by
  intro cnt
  induction cnt with
  | zero => intro k i hk hlt; omega
  | succ n ih =>
    intro k i hk hlt hfail hsucc
    rw [List.range'_succ k n 1]
    by_cases hki : k = i
    · subst hki
      simp [searchList, hsucc]
    · have hk' : k < i := Nat.lt_of_le_of_ne hk hki
      have hfk : allZero (compute_syndrome (flipBit r k) g) = false :=
        hfail k le_rfl hk'
      simp only [searchList, hfk, Bool.false_eq_true, if_false]
      exact ih (k + 1) i hk' (by omega)
        (fun j hj1 hj2 => hfail j (by omega) hj2) hsucc

/-- Exhausted search loop: if every index in `[k, k + cnt)` fails, the loop
falls through to the failure return. -/
lemma searchList_exhaust (r g : List Nat) :
    ∀ (cnt k : Nat),
      (∀ j, k ≤ j → j < k + cnt →
        allZero (compute_syndrome (flipBit r j) g) = false) →
      searchList r g (List.range' k cnt) =
        (r, "Unable to correct (multiple errors)") := by
  intro cnt
  induction cnt with
  | zero => intro k _; rfl
  | succ n ih =>
    intro k hfail
    rw [List.range'_succ k n 1]
    have hfk : allZero (compute_syndrome (flipBit r k) g) = false :=
      hfail k le_rfl (by omega)
    simp only [searchList, hfk, Bool.false_eq_true, if_false]
    exact ih (k + 1) (fun j hj1 hj2 => hfail j (by omega) (by omega))

/-! ### Claims -/

/-- Claim C1, counterexample: the generator `[1]` is non-empty and the
dividend `[1]` is at least as long, yet `divide_mod2([1], [1])` has length
`1`, not `len(g) - 1 = 0` — line 25's slice `dividend[-0:]` returns the
whole working copy when the divisor has one element. -/
theorem C1_remainder_length_counterexample :
    0 < ([1] : List Nat).length ∧
      ([1] : List Nat).length ≤ ([1] : List Nat).length ∧
      (xor_division [1] [1]).length ≠ ([1] : List Nat).length - 1 := by
  decide

/-- Claim C1, amended: for every generator of length at least two and every
dividend at least as long, `divide_mod2` returns a bit vector of length
exactly `len(g) - 1`, regardless of the dividend's length. -/
theorem C1_remainder_length (d g : List Nat) (hg : 2 ≤ g.length)
    (hd : g.length ≤ d.length) :
    (xor_division d g).length = g.length - 1 := by
  unfold xor_division tailSlice
  rw [if_neg (by omega), if_neg (by omega)]
  rw [List.length_drop, xorDivisionRun_work_length]
  omega

/-- Witness for C1: the amended length invariant at the default fixture. -/
theorem C1_remainder_length_witness :
    (xor_division [1, 1, 0, 1, 0, 0, 1] [1, 0, 1, 1]).length =
      ([1, 0, 1, 1] : List Nat).length - 1 :=
  C1_remainder_length [1, 1, 0, 1, 0, 0, 1] [1, 0, 1, 1]
    (by decide) (by decide)

/-- Claim C2: when the syndrome of the received vector is all-zero, the
decoder returns the received vector unchanged with the no-error status,
taking the early return of lines 35-36 without any flip search. -/
theorem C2_zero_syndrome_no_error (g c : List Nat)
    (h : allZero (compute_syndrome c g) = true) :
    simple_berlekamp_like_decoder c (compute_syndrome c g) g =
      (c, "No error detected") := by
  unfold simple_berlekamp_like_decoder
  rw [h]
  rfl

/-- Witness for C2 at the default fixture, whose syndrome is `[0,0,0]`. -/
theorem C2_zero_syndrome_no_error_witness :
    simple_berlekamp_like_decoder [1, 1, 0, 1, 0, 0, 1]
        (compute_syndrome [1, 1, 0, 1, 0, 0, 1] [1, 0, 1, 1]) [1, 0, 1, 1] =
      ([1, 1, 0, 1, 0, 0, 1], "No error detected") :=
  C2_zero_syndrome_no_error [1, 0, 1, 1] [1, 1, 0, 1, 0, 0, 1] (by decide)

/-- Claim C6: the concrete regression fixture.  For generator `[1,0,1,1]`
and received vector `[1,1,0,1,0,0,1]`, `divide_mod2` yields the 3-bit
syndrome `[0,0,0]`; since it is all-zero the decoder reports no error and
returns the vector unchanged. -/
theorem C6_default_fixture :
    compute_syndrome [1, 1, 0, 1, 0, 0, 1] [1, 0, 1, 1] = [0, 0, 0] ∧
      (compute_syndrome [1, 1, 0, 1, 0, 0, 1] [1, 0, 1, 1]).length = 3 ∧
      simple_berlekamp_like_decoder [1, 1, 0, 1, 0, 0, 1]
          (compute_syndrome [1, 1, 0, 1, 0, 0, 1] [1, 0, 1, 1]) [1, 0, 1, 1] =
        ([1, 1, 0, 1, 0, 0, 1], "No error detected") := by
  refine ⟨by decide, by decide, by decide⟩

/-- Claim C3, counterexample: for generator `[1,0]` the codeword `[0,0]` has
all-zero syndrome, flipping bit `0` gives `[1,0]` whose recomputed syndrome
is also all-zero, so the decoder takes the no-error branch and returns the
corrupted vector — not the original `[0,0]` with a correction at position
`0` — even though the proviso about smaller indices holds vacuously. -/
theorem C3_round_trip_counterexample :
    allZero (compute_syndrome [0, 0] [1, 0]) = true ∧
      (∀ j, j < 0 →
        allZero (compute_syndrome (flipBit (flipBit [0, 0] 0) j) [1, 0]) = false) ∧
      simple_berlekamp_like_decoder (flipBit [0, 0] 0)
          (compute_syndrome (flipBit [0, 0] 0) [1, 0]) [1, 0] ≠
        ([0, 0], "Single-bit error corrected at position " ++ toString 0) := by
  refine ⟨by decide, by decide, by decide⟩

/-- Claim C3, amended: round-trip correction holds under the additional
proviso that the corrupted vector's recomputed syndrome is itself non-zero.
For a codeword `c` with all-zero syndrome and an index `i < len(c)`, if the
syndrome of `c` with bit `i` flipped is non-zero, and no index `j < i`
yields an all-zero syndrome when flipped in the corrupted vector, then
decoding the corrupted vector returns the original `c` with the status
reporting a single-bit correction at position `i`. -/
theorem C3_round_trip (g c : List Nat) (i : Nat) (hi : i < c.length)
    (hclean : allZero (compute_syndrome c g) = true)
    (hnz : allZero (compute_syndrome (flipBit c i) g) = false)
    (hmin : ∀ j, j < i →
      allZero (compute_syndrome (flipBit (flipBit c i) j) g) = false) :
    simple_berlekamp_like_decoder (flipBit c i)
        (compute_syndrome (flipBit c i) g) g =
      (c, "Single-bit error corrected at position " ++ toString i) := by
  unfold simple_berlekamp_like_decoder
  rw [hnz]
  simp only [Bool.false_eq_true, if_false]
  rw [List.range_eq_range']
  have hlen : i < (flipBit c i).length := by rw [flipBit_length]; exact hi
  have hsucc : allZero (compute_syndrome (flipBit (flipBit c i) i) g) = true := by
    rw [flipBit_flipBit c i hi]; exact hclean
  rw [searchList_first (flipBit c i) g (flipBit c i).length 0 i (Nat.zero_le i)
    (by omega) (fun j _ hj => hmin j hj) hsucc]
  rw [flipBit_flipBit c i hi]

/-- Witness for C3: the default fixture codeword with bit 2 corrupted is
restored. -/
theorem C3_round_trip_witness :
    simple_berlekamp_like_decoder (flipBit [1, 1, 0, 1, 0, 0, 1] 2)
        (compute_syndrome (flipBit [1, 1, 0, 1, 0, 0, 1] 2) [1, 0, 1, 1])
        [1, 0, 1, 1] =
      ([1, 1, 0, 1, 0, 0, 1],
        "Single-bit error corrected at position " ++ toString 2) :=
  C3_round_trip [1, 0, 1, 1] [1, 1, 0, 1, 0, 0, 1] 2 (by decide) (by decide)
    (by decide) (by decide)

/-- Claim C4: lowest-index tie-break.  If the passed syndrome is non-zero,
indices `i < i'` both yield all-zero trial syndromes, and no index below `i`
does, the decoder returns the trial vector for the smallest such index `i`,
scanning ascending from 0 and stopping at the first success. -/
theorem C4_lowest_index_tie_break (r s g : List Nat) (i i' : Nat)
    (hi : i < r.length) (hii' : i < i') (hi' : i' < r.length)
    (hs : allZero s = false)
    (hsucc : allZero (compute_syndrome (flipBit r i) g) = true)
    (hsucc' : allZero (compute_syndrome (flipBit r i') g) = true)
    (hmin : ∀ j, j < i → allZero (compute_syndrome (flipBit r j) g) = false) :
    simple_berlekamp_like_decoder r s g =
      (flipBit r i, "Single-bit error corrected at position " ++ toString i) := by
  unfold simple_berlekamp_like_decoder
  rw [hs]
  simp only [Bool.false_eq_true, if_false]
  rw [List.range_eq_range']
  exact searchList_first r g r.length 0 i (Nat.zero_le i) (by omega)
    (fun j _ hj => hmin j hj) hsucc

/-- Witness for C4: with generator `[1,1]` and received `[1,0]`, flipping
either bit zeroes the syndrome; the decoder picks index 0. -/
theorem C4_lowest_index_tie_break_witness :
    simple_berlekamp_like_decoder [1, 0] (compute_syndrome [1, 0] [1, 1])
        [1, 1] =
      (flipBit [1, 0] 0, "Single-bit error corrected at position " ++ toString 0) :=
  C4_lowest_index_tie_break [1, 0] (compute_syndrome [1, 0] [1, 1]) [1, 1] 0 1
    (by decide) (by decide) (by decide) (by decide) (by decide) (by decide)
    (by decide)

/-- Claim C5: uncorrectable case.  If the passed syndrome is non-zero and no
single-bit flip of the received vector yields an all-zero syndrome, the
decoder returns the received vector unchanged with the uncorrectable status
label, as an ordinary return value (line 44), not a raised error. -/
theorem C5_uncorrectable (r s g : List Nat) (hs : allZero s = false)
    (hfail : ∀ i, i < r.length →
      allZero (compute_syndrome (flipBit r i) g) = false) :
    simple_berlekamp_like_decoder r s g =
      (r, "Unable to correct (multiple errors)") := by
  unfold simple_berlekamp_like_decoder
  rw [hs]
  simp only [Bool.false_eq_true, if_false]
  rw [List.range_eq_range']
  exact searchList_exhaust r g r.length 0 (fun j _ hj => hfail j (by omega))

/-- Witness for C5: generator `[1,0,1]` and received `[0,1,1]` have syndrome
`[1,1]`, which no single flip can zero. -/
theorem C5_uncorrectable_witness :
    simple_berlekamp_like_decoder [0, 1, 1]
        (compute_syndrome [0, 1, 1] [1, 0, 1]) [1, 0, 1] =
      ([0, 1, 1], "Unable to correct (multiple errors)") :=
  C5_uncorrectable [0, 1, 1] (compute_syndrome [0, 1, 1] [1, 0, 1]) [1, 0, 1]
    (by decide) (by decide)

/-- Claim C7: no mutation of inputs.  In the state-threaded run of the
`xor_division` loop, the caller's `dividend` and `divisor` lists are
unchanged after the call — every write of lines 21-24 lands in the private
copy made at line 20 — and likewise each trial flip inside the decoder
(lines 39-40) writes only into the copy `test`, leaving `received`
unchanged.  `compute_syndrome` is a direct call to `xor_division`, so it
inherits the same frame property. -/
theorem C7_no_input_mutation (d g r : List Nat) (i : Nat) :
    (xorDivisionRun d g).dividendArg = d ∧
      (xorDivisionRun d g).divisorArg = g ∧
      (trialRun r i).receivedArg = r := by
  unfold xorDivisionRun
  rcases foldl_outerStep_args (List.range (loopCount d g)) ⟨d, g, d⟩ with ⟨h1, h2⟩
  exact ⟨h1, h2, rfl⟩

/-- Claim C8: degenerate short-dividend case.  For a non-empty divisor and a
strictly shorter dividend, the outer loop of `xor_division` runs zero
iterations (the working copy stays equal to the dividend), and the returned
slice is a suffix of the original dividend. -/
theorem C8_short_dividend (d g : List Nat) (hg : 0 < g.length)
    (hd : d.length < g.length) :
    (xorDivisionRun d g).work = d ∧ xor_division d g <:+ d := by
  have hrun : xorDivisionRun d g = ⟨d, g, d⟩ := by
    unfold xorDivisionRun loopCount
    rw [if_neg (by omega)]
    rfl
  refine ⟨by rw [hrun], ?_⟩
  unfold xor_division tailSlice
  rw [hrun]
  rw [if_neg (by omega)]
  by_cases h1 : g.length = 1
  · rw [if_pos h1]
  · rw [if_neg h1]
    exact List.drop_suffix _ _

/-- Witness for C8: dividend `[1,0]` against the longer divisor `[1,1,1]`. -/
theorem C8_short_dividend_witness :
    (xorDivisionRun [1, 0] [1, 1, 1]).work = [1, 0] ∧
      xor_division [1, 0] [1, 1, 1] <:+ [1, 0] :=
  C8_short_dividend [1, 0] [1, 1, 1] (by decide) (by decide)

/-- Claim C9: for a divisor of length exactly one, line 25's slice
`dividend[-0:]` is the whole list, so `xor_division` returns the entire
reduced working copy, a vector of length `len(dividend)` rather than the
empty vector of length `len(divisor) - 1 = 0`. -/
theorem C9_unit_divisor (d g : List Nat) (hg : g.length = 1) :
    xor_division d g = (xorDivisionRun d g).work ∧
      (xor_division d g).length = d.length := by
  have hslice : xor_division d g = (xorDivisionRun d g).work := by
    unfold xor_division tailSlice
    rw [if_neg (by omega), if_pos hg]
  exact ⟨hslice, by rw [hslice, xorDivisionRun_work_length]⟩

/-- Witness for C9: dividing `[1,0,1]` by `[1]` returns a length-3 vector. -/
theorem C9_unit_divisor_witness :
    xor_division [1, 0, 1] [1] = (xorDivisionRun [1, 0, 1] [1]).work ∧
      (xor_division [1, 0, 1] [1]).length = ([1, 0, 1] : List Nat).length :=
  C9_unit_divisor [1, 0, 1] [1] (by decide)

/-- Claim C10: noninterference on the syndrome argument.  For a fixed
received vector and generator, any two non-zero syndrome arguments produce
bit-identical decode results: the syndrome is consulted only by the
all-zero test of line 35, and the flip search recomputes syndromes from the
received vector and generator alone. -/
theorem C10_syndrome_noninterference (r g s₁ s₂ : List Nat)
    (h₁ : allZero s₁ = false) (h₂ : allZero s₂ = false) :
    simple_berlekamp_like_decoder r s₁ g = simple_berlekamp_like_decoder r s₂ g := by
  unfold simple_berlekamp_like_decoder
  rw [h₁, h₂]

/-- Witness for C10: two different non-zero syndromes give the same result. -/
theorem C10_syndrome_noninterference_witness :
    simple_berlekamp_like_decoder [1, 0] [1] [1, 1] =
      simple_berlekamp_like_decoder [1, 0] [1, 1, 1] [1, 1] :=
  C10_syndrome_noninterference [1, 0] [1, 1] [1] [1, 1, 1] (by decide) (by decide)
